import Mathlib

/-!
Shallow embedding of `src/future_vision_generator.py`.

The program samples random seed parameters, calls a remote text-generation
capability, collects a batch of pairwise-distinct texts, and writes them to a
CSV file with all fields quoted.  The remote call is modelled as an explicit
oracle `respond`; a raised Python exception is an `Except.error`, and the
unbounded duplicate-rejection loop is given explicit fuel: running out of fuel
(`Option.none`) corresponds to the Python loop not terminating.  Randomness is
modelled as an explicit stream `rng : Nat → Nat` feeding `random.choice`.
-/

/-- A Python exception value: `ValueError` or any other exception class. -/
inductive PyExc where
  | valueError (msg : String)
  | otherError (msg : String)
deriving DecidableEq, Repr

/-- The fixed theme labels of `FutureVisionGenerator.categories` (source lines 46-53). -/
def categories : List String :=
  ["Human-AI Integration", "Space Exploration", "Urban Development",
   "Biotechnology", "Communication", "Transportation", "Entertainment",
   "Environment", "Governance", "Work & Economy", "Education", "Healthcare",
   "Food Systems", "Art & Creativity", "Home & Living", "Social Structures",
   "Mars Colonization", "Neural Interfaces", "Quantum Computing", "Consciousness Transfer",
   "Ocean Colonization", "Genetic Engineering", "Climate Engineering", "Interstellar Travel"]

/-- Domain of the `technology_level` field (source line 99). -/
def technology_levels : List String := ["early-stage", "mature", "post-singularity"]

/-- Domain of the `setting` field (source line 100). -/
def settings : List String := ["urban", "orbital", "underwater", "martian", "wilderness", "space"]

/-- Domain of the `tone` field (source line 101). -/
def tones : List String := ["optimistic", "pragmatic", "complex", "contemplative"]

/-- Domain of the `focus` field (source line 102). -/
def focuses : List String := ["daily life", "work", "art", "governance", "exploration", "communication"]

/-- `random.choice(l)`: select the element at a random valid index.  The random
draw `r` is reduced modulo the length, so every draw picks an element of `l`. -/
def randomChoice (l : List String) (r : Nat) : String :=
  l.getD (r % l.length) ""

/-- The record of five sampled fields built by `generate_seed_parameters`. -/
structure SeedParams where
  category : String
  technology_level : String
  setting : String
  tone : String
  focus : String
deriving DecidableEq, Repr

/-- `FutureVisionGenerator.generate_seed_parameters` (source lines 95-103):
one independent random choice per field. -/
def generate_seed_parameters (r1 r2 r3 r4 r5 : Nat) : SeedParams :=
  { category := randomChoice categories r1
    technology_level := randomChoice technology_levels r2
    setting := randomChoice settings r3
    tone := randomChoice tones r4
    focus := randomChoice focuses r5 }

/-- The parameter set drawn for the k-th requester call: five fresh draws from
the random stream. -/
def paramsAt (rng : Nat → Nat) (k : Nat) : SeedParams :=
  generate_seed_parameters (rng (5 * k)) (rng (5 * k + 1)) (rng (5 * k + 2))
    (rng (5 * k + 3)) (rng (5 * k + 4))

/-- The natural-language query built by `generate_prompt` (source lines 115-127)
from a parameter set. -/
def prompt_query (params : SeedParams) : String :=
  "Create a detailed, imaginative prompt for digital art depicting futuristic coexistence \nbetween technology, AI, and beings 100 years from now.\n\nCategory: "
    ++ params.category
    ++ "\nTechnology Level: " ++ params.technology_level
    ++ "\nSetting: " ++ params.setting
    ++ "\nTone: " ++ params.tone
    ++ "\nFocus: " ++ params.focus
    ++ "\n\nMake it specific, visual, and evocative. The prompt should be a rich description that\ncould be used to generate digital art."

/-- Python's `str.strip()`: remove whitespace from both ends of the string. -/
def pyStrip (s : String) : String :=
  ((s.data.dropWhile Char.isWhitespace).reverse.dropWhile Char.isWhitespace).reverse.asString

/-- `FutureVisionGenerator.generate_prompt` (source lines 105-130): send the
query built from the parameters to the remote capability and strip the reply.
`respond` is the opaque remote call; its `Except.error` models a raised
exception, which propagates unhandled to the caller. -/
def generate_prompt (respond : String → Nat → Except PyExc String)
    (params : SeedParams) (k : Nat) : Except PyExc String :=
  (respond (prompt_query params) k).map pyStrip

/-- The requester as seen by the batch loop: the k-th call samples fresh
parameters from the stream and issues `generate_prompt` with them. -/
def requestAt (rng : Nat → Nat) (respond : String → Nat → Except PyExc String)
    (k : Nat) : Except PyExc String :=
  generate_prompt respond (paramsAt rng k) k

/-- The duplicate-rejection loop body of `generate_batch` (source lines 148-154):
keep requesting (with fresh parameters each attempt) until the returned text is
not in `seen`.  `calls` counts requester calls made so far; each attempt
consumes one unit of fuel, and `none` models non-termination of the unbounded
Python `while` loop. -/
def acquireUnique (req : Nat → Except PyExc String) (seen : List String) :
    Nat → Nat → Option (Except PyExc (String × Nat))
  | 0, _ => none
  | fuel + 1, calls =>
    match req calls with
    | .error e => some (.error e)
    | .ok t =>
      if t ∈ seen then acquireUnique req seen fuel (calls + 1)
      else some (.ok (t, calls + 1))

/-- The accumulating loop of `generate_batch` (source lines 142-162): for each
`i` from `i0` while `remaining` items are still needed, acquire a text not yet
in `seen`, add it to `seen` and append `(i, text)` to the results.  Returns the
final result list together with the total number of requester calls. -/
def generateBatchAux (req : Nat → Except PyExc String) (fuel : Nat) :
    Nat → Nat → Nat → List String → List (Nat × String) →
    Option (Except PyExc (List (Nat × String) × Nat))
  | _, 0, calls, _, acc => some (.ok (acc, calls))
  | i, remaining + 1, calls, seen, acc =>
    match acquireUnique req seen fuel calls with
    | none => none
    | some (.error e) => some (.error e)
    | some (.ok (t, calls')) =>
      generateBatchAux req fuel (i + 1) remaining calls' (t :: seen) (acc ++ [(i, t)])

/-- `FutureVisionGenerator.generate_batch` (source lines 132-162): produce
`count` pairwise-distinct prompts numbered from 1, starting from an empty
seen set and empty result list. -/
def generate_batch (rng : Nat → Nat) (respond : String → Nat → Except PyExc String)
    (fuel count : Nat) : Option (Except PyExc (List (Nat × String))) :=
  (generateBatchAux (requestAt rng respond) fuel 1 count 0 [] []).map
    (Except.map Prod.fst)

/-- The sequence of `(seen, results)` states observed directly after each
accepted item of the batch loop, mirroring `generateBatchAux` step for step. -/
def batchTrace (req : Nat → Except PyExc String) (fuel : Nat) :
    Nat → Nat → Nat → List String → List (Nat × String) →
    List (List String × List (Nat × String))
  | _, 0, _, _, _ => []
  | i, remaining + 1, calls, seen, acc =>
    match acquireUnique req seen fuel calls with
    | none => []
    | some (.error _) => []
    | some (.ok (t, calls')) =>
      (t :: seen, acc ++ [(i, t)]) ::
        batchTrace req fuel (i + 1) remaining calls' (t :: seen) (acc ++ [(i, t)])

/-! ### The CSV writer (`csv.writer` with `quoting=csv.QUOTE_ALL`)

`generate_and_save` (source lines 164-179) writes a header row `ID,Prompt` and
then one row per `(id, prompt)` pair, every field quoted, internal quote
characters doubled, rows terminated by CR LF (the `csv` module defaults). -/

/-- Double every quote character of a field body (the `csv` module's
`doublequote=True` escaping). -/
def escChars : List Char → List Char
  | [] => []
  | c :: rest =>
    if c = '\"' then '\"' :: '\"' :: escChars rest else c :: escChars rest

/-- One quoted field: opening quote, escaped body, closing quote. -/
def fieldChars (s : String) : List Char :=
  '\"' :: (escChars s.data ++ ['\"'])

/-- One CSV record: quoted fields joined by commas, terminated by CR LF. -/
def recordChars : List String → List Char
  | [] => ['\r', '\n']
  | [f] => fieldChars f ++ ['\r', '\n']
  | f :: fs => fieldChars f ++ ',' :: recordChars fs

/-- A whole CSV file: the concatenation of its records. -/
def fileChars : List (List String) → List Char
  | [] => []
  | r :: rs => recordChars r ++ fileChars rs

/-- The header row written at source line 175. -/
def csvHeader : List String := ["ID", "Prompt"]

/-- The row written for one `(id, prompt)` pair: `csv.writer` renders the
integer field with `str`, i.e. decimal notation. -/
def encodeRow (p : Nat × String) : List String := [Nat.repr p.1, p.2]

/-- The full contents of the output file for a result list (source lines
173-176): header row then one row per pair, all fields quoted. -/
def csvFile (prompts : List (Nat × String)) : String :=
  (fileChars (csvHeader :: prompts.map encodeRow)).asString

/-- `FutureVisionGenerator.generate_and_save` (source lines 164-179): run the
batch, and only if it returns normally write the CSV file; an exception from
the batch propagates and nothing is written.  The returned value is the file
contents written on success. -/
def generate_and_save (rng : Nat → Nat) (respond : String → Nat → Except PyExc String)
    (fuel count : Nat) : Option (Except PyExc String) :=
  match generate_batch rng respond fuel count with
  | none => none
  | some (.error e) => some (.error e)
  | some (.ok prompts) => some (.ok (csvFile prompts))

/-! ### A CSV parser, used to state the write-then-parse round trip -/

/-- Parse the body of a quoted field after its opening quote: a doubled quote
is an escaped quote character, a lone quote closes the field.  Returns the
unescaped body and the remaining input. -/
def parseQuotedBody : List Char → Option (List Char × List Char)
  | [] => none
  | c :: rest =>
    if c = '\"' then
      match rest with
      | [] => some ([], [])
      | c2 :: rest2 =>
        if c2 = '\"' then
          match parseQuotedBody rest2 with
          | none => none
          | some (b, r) => some ('\"' :: b, r)
        else some ([], rest)
    else
      match parseQuotedBody rest with
      | none => none
      | some (b, r) => some (c :: b, r)

/-- Parse the quoted fields of one record up to and including its CR LF
terminator.  `fuel` bounds the number of fields. -/
def parseFields : Nat → List Char → Option (List (List Char) × List Char)
  | 0, _ => none
  | fuel + 1, cs =>
    match cs with
    | '\"' :: rest =>
      match parseQuotedBody rest with
      | none => none
      | some (body, after) =>
        match after with
        | ',' :: more =>
          match parseFields fuel more with
          | none => none
          | some (fs, r) => some (body :: fs, r)
        | '\r' :: '\n' :: more => some ([body], more)
        | _ => none
    | _ => none

/-- Parse a sequence of records until the input is exhausted. -/
def parseRecords : Nat → List Char → Option (List (List (List Char)))
  | _, [] => some []
  | 0, _ => none
  | fuel + 1, cs =>
    match parseFields (fuel + 1) cs with
    | none => none
    | some (fields, rest) =>
      match parseRecords fuel rest with
      | none => none
      | some rs => some (fields :: rs)

/-- Parse a CSV file of fully quoted fields back into its records. -/
def parseCsv (s : String) : Option (List (List String)) :=
  (parseRecords (s.data.length + 1) s.data).map (List.map (List.map List.asString))

/-- Read one parsed row back as an `(id, prompt)` pair. -/
def decodeRow : List String → Option (Nat × String)
  | [idStr, text] => (String.toNat? idStr).map (fun n => (n, text))
  | _ => none

/-- Read all parsed data rows back as `(id, prompt)` pairs. -/
def decodeRows : List (List String) → Option (List (Nat × String))
  | [] => some []
  | r :: rs =>
    match decodeRow r, decodeRows rs with
    | some p, some ps => some (p :: ps)
    | _, _ => none

/-- The decimal digit characters of a natural number, most significant first;
the reference inverse of `Nat.repr`. -/
def decChars (n : Nat) : List Char :=
  if _h : n < 10 then [Nat.digitChar n]
  else decChars (n / 10) ++ [Nat.digitChar (n % 10)]
decreasing_by exact Nat.div_lt_self (by omega) (by omega)

/-! ### Initialization and the top-level entry point -/

/-- The effect of `__init__` lines 38-39 on the environment variable: a truthy
`api_key` argument overwrites `OPENAI_API_KEY`; `None` or an empty string
leaves it unchanged.  The environment value is `none` when the variable is
absent. -/
def setKey (env api_key : Option String) : Option String :=
  match api_key with
  | some k => if k = "" then env else some k
  | none => env

/-- `FutureVisionGenerator.__init__` (source lines 27-43): after the optional
override, a missing or empty `OPENAI_API_KEY` raises `ValueError`; otherwise
construction succeeds with the resulting environment value. -/
def initGenerator (env api_key : Option String) : Except PyExc (Option String) :=
  let env' := setKey env api_key
  match env' with
  | none => .error (.valueError "No OpenAI API key found. Please provide one or set OPENAI_API_KEY in the .env file.")
  | some k =>
    if k = "" then
      .error (.valueError "No OpenAI API key found. Please provide one or set OPENAI_API_KEY in the .env file.")
    else .ok env'

/-- The observable outcome printed by `main` (source lines 192-204). -/
inductive MainOutcome where
  | success
  | configError (msg : String)
  | generationError (msg : String)
deriving DecidableEq, Repr

/-- `main` (source lines 184-204): construct the generator (with no `api_key`
argument) and run `generate_and_save`; a `ValueError` raised anywhere in the
`try` block is reported as a configuration error, any other exception as a
generation error.  Returns the console outcome and the output-file contents
(`none` when no file was written); `none` overall models a hung run. -/
def runMain (env : Option String) (rng : Nat → Nat)
    (respond : String → Nat → Except PyExc String) (fuel count : Nat) :
    Option (MainOutcome × Option String) :=
  match initGenerator env none with
  | .error (.valueError m) => some (.configError m, none)
  | .error (.otherError m) => some (.generationError m, none)
  | .ok _ =>
    match generate_and_save rng respond fuel count with
    | none => none
    | some (.error (.valueError m)) => some (.configError m, none)
    | some (.error (.otherError m)) => some (.generationError m, none)
    | some (.ok contents) => some (.success, some contents)

/-! ## Lemmas about the sampler -/

theorem randomChoice_mem (l : List String) (hl : l ≠ []) (r : Nat) :
    randomChoice l r ∈ l := by
  have hlen : 0 < l.length := List.length_pos.mpr hl
  have hlt : r % l.length < l.length := Nat.mod_lt _ hlen
  unfold randomChoice
  rw [List.getD_eq_getElem?_getD, List.getElem?_eq_getElem hlt]
  exact List.getElem_mem hlt

/-! ## Lemmas about the duplicate-rejection loop -/

theorem acquireUnique_ok_not_mem {req : Nat → Except PyExc String}
    {seen : List String} {fuel calls : Nat} {t : String} {calls' : Nat}
    (h : acquireUnique req seen fuel calls = some (.ok (t, calls'))) : t ∉ seen := by
  induction fuel generalizing calls with
  | zero => simp [acquireUnique] at h
  | succ fuel ih =>
    cases hreq : req calls with
    | error e => simp [acquireUnique, hreq] at h
    | ok u =>
      simp only [acquireUnique, hreq] at h
      by_cases hu : u ∈ seen
      · rw [if_pos hu] at h
        exact ih h
      · rw [if_neg hu] at h
        simp only [Option.some.injEq, Except.ok.injEq, Prod.mk.injEq] at h
        obtain ⟨rfl, -⟩ := h
        exact hu

theorem acquireUnique_dup {req : Nat → Except PyExc String} {seen : List String}
    (fuel calls : Nat) {t : String} (h1 : req calls = .ok t) (h2 : t ∈ seen) :
    acquireUnique req seen (fuel + 1) calls = acquireUnique req seen fuel (calls + 1) := by
  simp only [acquireUnique, h1, if_pos h2]

theorem generateBatchAux_ids {req : Nat → Except PyExc String} {fuel : Nat} :
    ∀ {r i calls : Nat} {seen : List String} {acc l : List (Nat × String)} {c : Nat},
      generateBatchAux req fuel i r calls seen acc = some (.ok (l, c)) →
      l.map Prod.fst = acc.map Prod.fst ++ List.range' i r := by
  intro r
  induction r with
  | zero =>
    intro i calls seen acc l c h
    simp only [generateBatchAux, Option.some.injEq, Except.ok.injEq, Prod.mk.injEq] at h
    obtain ⟨⟨rfl, -⟩, -⟩ := h
    simp [List.range']
  | succ r ih =>
    intro i calls seen acc l c h
    simp only [generateBatchAux] at h
    cases hacq : acquireUnique req seen fuel calls with
    | none => rw [hacq] at h; simp at h
    | some v =>
      rw [hacq] at h
      cases v with
      | error e => simp at h
      | ok p =>
        obtain ⟨t, calls'⟩ := p
        have := ih h
        rw [this, List.range'_succ]
        simp

theorem generateBatchAux_nodup {req : Nat → Except PyExc String} {fuel : Nat} :
    ∀ {r i calls : Nat} {seen : List String} {acc l : List (Nat × String)} {c : Nat},
      (∀ s ∈ acc.map Prod.snd, s ∈ seen) →
      (acc.map Prod.snd).Nodup →
      generateBatchAux req fuel i r calls seen acc = some (.ok (l, c)) →
      (l.map Prod.snd).Nodup := by
  intro r
  induction r with
  | zero =>
    intro i calls seen acc l c hsub hnd h
    simp only [generateBatchAux, Option.some.injEq, Except.ok.injEq, Prod.mk.injEq] at h
    obtain ⟨⟨rfl, -⟩, -⟩ := h
    exact hnd
  | succ r ih =>
    intro i calls seen acc l c hsub hnd h
    simp only [generateBatchAux] at h
    cases hacq : acquireUnique req seen fuel calls with
    | none => rw [hacq] at h; simp at h
    | some v =>
      rw [hacq] at h
      cases v with
      | error e => simp at h
      | ok p =>
        obtain ⟨t, calls'⟩ := p
        have htnew : t ∉ seen := acquireUnique_ok_not_mem hacq
        refine ih ?_ ?_ h
        · intro s hs
          simp only [List.map_append, List.map_cons, List.map_nil, List.mem_append,
            List.mem_singleton] at hs
          rcases hs with hs | hs
          · exact List.mem_cons_of_mem _ (hsub s hs)
          · simp [hs]
        · simp only [List.map_append, List.map_cons, List.map_nil]
          rw [← List.concat_eq_append]
          refine List.Nodup.concat ?_ hnd
          intro hmem
          exact htnew (hsub t hmem)

theorem batchTrace_inv {req : Nat → Except PyExc String} {fuel : Nat} :
    ∀ {r i calls : Nat} {seen : List String} {acc : List (Nat × String)}
      {st : List String × List (Nat × String)},
      (∀ s, s ∈ seen ↔ s ∈ acc.map Prod.snd) →
      st ∈ batchTrace req fuel i r calls seen acc →
      ∀ s, s ∈ st.1 ↔ s ∈ st.2.map Prod.snd := by
  intro r
  induction r with
  | zero => intro i calls seen acc st _ h; simp [batchTrace] at h
  | succ r ih =>
    intro i calls seen acc st hinv h
    simp only [batchTrace] at h
    cases hacq : acquireUnique req seen fuel calls with
    | none => rw [hacq] at h; simp at h
    | some v =>
      rw [hacq] at h
      cases v with
      | error e => simp at h
      | ok p =>
        obtain ⟨t, calls'⟩ := p
        simp only [List.mem_cons] at h
        rcases h with rfl | h
        · intro s
          simp only [List.map_append, List.map_cons, List.map_nil, List.mem_append,
            List.mem_singleton, List.mem_cons]
          rw [hinv s]
          tauto
        · refine ih ?_ h
          intro s
          simp only [List.map_append, List.map_cons, List.map_nil, List.mem_append,
            List.mem_singleton, List.mem_cons]
          rw [hinv s]
          tauto

theorem generateBatchAux_all_fresh {f : Nat → String} (hinj : Function.Injective f)
    {req : Nat → Except PyExc String} (hreq : ∀ k, req k = .ok (f k))
    {fuel : Nat} (hfuel : 1 ≤ fuel) :
    ∀ (r i calls : Nat) (seen : List String) (acc : List (Nat × String)),
      (∀ s ∈ seen, ∃ j, j < calls ∧ f j = s) →
      ∃ l, generateBatchAux req fuel i r calls seen acc = some (.ok (l, calls + r)) := by
  intro r
  induction r with
  | zero =>
    intro i calls seen acc _
    exact ⟨acc, by simp [generateBatchAux]⟩
  | succ r ih =>
    intro i calls seen acc hseen
    obtain ⟨fl, rfl⟩ : ∃ fl, fuel = fl + 1 := ⟨fuel - 1, by omega⟩
    have hnot : f calls ∉ seen := by
      intro hmem
      obtain ⟨j, hj, hfj⟩ := hseen _ hmem
      have := hinj hfj
      omega
    have hacq : acquireUnique req seen (fl + 1) calls = some (.ok (f calls, calls + 1)) := by
      simp [acquireUnique, hreq calls, hnot]
    have hside : ∀ s ∈ f calls :: seen, ∃ j, j < calls + 1 ∧ f j = s := by
      intro s hs
      rcases List.mem_cons.mp hs with rfl | hs
      · exact ⟨calls, by omega, rfl⟩
      · obtain ⟨j, hj, hfj⟩ := hseen s hs
        exact ⟨j, by omega, hfj⟩
    obtain ⟨l, hl⟩ := ih (i + 1) (calls + 1) (f calls :: seen) (acc ++ [(i, f calls)]) hside
    refine ⟨l, ?_⟩
    simp only [generateBatchAux, hacq]
    have heq : calls + (r + 1) = calls + 1 + r := by omega
    rw [heq]
    exact hl

theorem generate_batch_ok {rng : Nat → Nat} {respond : String → Nat → Except PyExc String}
    {fuel count : Nat} {l : List (Nat × String)}
    (h : generate_batch rng respond fuel count = some (.ok l)) :
    ∃ c, generateBatchAux (requestAt rng respond) fuel 1 count 0 [] [] = some (.ok (l, c)) := by
  unfold generate_batch at h
  cases haux : generateBatchAux (requestAt rng respond) fuel 1 count 0 [] [] with
  | none => rw [haux] at h; simp at h
  | some v =>
    rw [haux] at h
    cases v with
    | error e => simp [Except.map] at h
    | ok p =>
      obtain ⟨l', c⟩ := p
      simp only [Option.map_some', Except.map, Option.some.injEq, Except.ok.injEq] at h
      exact ⟨c, by rw [h]⟩

theorem generate_batch_length {rng : Nat → Nat} {respond : String → Nat → Except PyExc String}
    {fuel count : Nat} {l : List (Nat × String)}
    (h : generate_batch rng respond fuel count = some (.ok l)) :
    l.map Prod.fst = List.range' 1 count ∧ l.length = count := by
  obtain ⟨c, haux⟩ := generate_batch_ok h
  have hids := generateBatchAux_ids haux
  simp only [List.map_nil, List.nil_append] at hids
  refine ⟨hids, ?_⟩
  have := congrArg List.length hids
  simpa using this

/-! ## Lemmas about the CSV writer and parser -/

theorem data_asString (s : String) : s.data.asString = s := rfl

theorem asString_data (l : List Char) : (l.asString).data = l := rfl

theorem parseQuotedBody_cons (c : Char) (rest : List Char) :
    parseQuotedBody (c :: rest) =
      if c = '\"' then
        match rest with
        | [] => some ([], [])
        | c2 :: rest2 =>
          if c2 = '\"' then
            match parseQuotedBody rest2 with
            | none => none
            | some (b, r) => some ('\"' :: b, r)
          else some ([], rest)
      else
        match parseQuotedBody rest with
        | none => none
        | some (b, r) => some (c :: b, r) := by
  rw [parseQuotedBody.eq_def]

theorem parseQuotedBody_round (s : List Char) :
    ∀ rest : List Char, rest.head? ≠ some '\"' →
      parseQuotedBody (escChars s ++ '\"' :: rest) = some (s, rest) := by
  induction s with
  | nil =>
    intro rest hrest
    cases rest with
    | nil => simp [escChars, parseQuotedBody]
    | cons c2 rest2 =>
      have hc2 : c2 ≠ '\"' := by
        intro h
        exact hrest (by simp [h])
      simp [escChars, parseQuotedBody, hc2]
  | cons a s ih =>
    intro rest hrest
    by_cases ha : a = '\"'
    · subst ha
      have : escChars ('\"' :: s) ++ '\"' :: rest =
          '\"' :: '\"' :: (escChars s ++ '\"' :: rest) := by
        simp [escChars]
      rw [this]
      simp [parseQuotedBody, ih rest hrest]
    · have : escChars (a :: s) ++ '\"' :: rest = a :: (escChars s ++ '\"' :: rest) := by
        simp [escChars, ha]
      rw [this, parseQuotedBody_cons, if_neg ha, ih rest hrest]

theorem parseFields_round :
    ∀ (fields : List String) (fuel : Nat) (rest : List Char),
      fields ≠ [] → fields.length ≤ fuel →
      parseFields fuel (recordChars fields ++ rest) =
        some (fields.map String.data, rest) := by
  intro fields
  induction fields with
  | nil => intro fuel rest h; exact absurd rfl h
  | cons f fs ih =>
    intro fuel rest _ hlen
    simp only [List.length_cons] at hlen
    obtain ⟨fl, rfl⟩ : ∃ fl, fuel = fl + 1 := ⟨fuel - 1, by omega⟩
    cases fs with
    | nil =>
      have hshape : recordChars [f] ++ rest =
          '\"' :: (escChars f.data ++ '\"' :: ('\r' :: '\n' :: rest)) := by
        simp [recordChars, fieldChars]
      rw [hshape]
      have hbody := parseQuotedBody_round f.data ('\r' :: '\n' :: rest) (by simp)
      simp [parseFields, hbody]
    | cons f2 fs2 =>
      have hshape : recordChars (f :: f2 :: fs2) ++ rest =
          '\"' :: (escChars f.data ++ '\"' :: (',' :: (recordChars (f2 :: fs2) ++ rest))) := by
        simp [recordChars, fieldChars]
      rw [hshape]
      have hbody := parseQuotedBody_round f.data (',' :: (recordChars (f2 :: fs2) ++ rest))
        (by simp)
      have hrec := ih (fl) rest (by simp) (by simpa using hlen)
      simp [parseFields, hbody, hrec]

theorem recordChars_length_ge (r : List String) : 2 ≤ (recordChars r).length := by
  match r with
  | [] => simp [recordChars]
  | [f] => simp [recordChars, fieldChars]
  | f :: f2 :: fs =>
    simp only [recordChars, fieldChars, List.length_append, List.length_cons]
    omega

theorem fileChars_length_ge (records : List (List String)) :
    2 * records.length ≤ (fileChars records).length := by
  induction records with
  | nil => simp [fileChars]
  | cons r rs ih =>
    have := recordChars_length_ge r
    simp only [fileChars, List.length_append, List.length_cons]
    omega

theorem parseRecords_round :
    ∀ (records : List (List String)) (fuel : Nat),
      (∀ r ∈ records, r.length = 2) → records.length + 2 ≤ fuel →
      parseRecords fuel (fileChars records) =
        some (records.map (List.map String.data)) := by
  intro records
  induction records with
  | nil => intro fuel _ _; simp [fileChars, parseRecords]
  | cons r rs ih =>
    intro fuel h2 hfuel
    obtain ⟨fl, rfl⟩ : ∃ fl, fuel = fl + 1 := ⟨fuel - 1, by omega⟩
    simp only [List.length_cons] at hfuel
    have hr2 : r.length = 2 := h2 r (by simp)
    obtain ⟨a, b, rfl⟩ := List.length_eq_two.mp hr2
    have hfields := parseFields_round [a, b] (fl + 1) (fileChars rs) (by simp) (by simp; omega)
    have hshape : fileChars ([a, b] :: rs) = recordChars [a, b] ++ fileChars rs := by
      simp [fileChars]
    have hcons : ∃ c cs, recordChars [a, b] ++ fileChars rs = c :: cs := by
      cases h : recordChars [a, b] ++ fileChars rs with
      | nil =>
        have := recordChars_length_ge [a, b]
        have hlen := congrArg List.length h
        simp only [List.length_append, List.length_nil] at hlen
        omega
      | cons c cs => exact ⟨c, cs, rfl⟩
    obtain ⟨c, cs, hcs⟩ := hcons
    have hrec := ih fl (fun x hx => h2 x (by simp [hx])) (by omega)
    rw [hshape, hcs]
    have : parseRecords (fl + 1) (c :: cs) =
        match parseFields (fl + 1) (c :: cs) with
        | none => none
        | some (fields, rest) =>
          match parseRecords fl rest with
          | none => none
          | some rs => some (fields :: rs) := rfl
    rw [this, ← hcs, hfields]
    simp [hrec]

theorem csv_parse_write (records : List (List String))
    (h2 : ∀ r ∈ records, r.length = 2) :
    parseCsv ((fileChars records).asString) = some records := by
  unfold parseCsv
  rw [asString_data]
  cases records with
  | nil => simp [fileChars, parseRecords]
  | cons r rs =>
    rw [parseRecords_round (r :: rs) _ h2 ?bound]
    case bound =>
      have := fileChars_length_ge (r :: rs)
      simp only [List.length_cons] at this ⊢
      omega
    have hco : (List.asString ∘ String.data) = id := funext data_asString
    simp [List.map_map, hco]

/-! ## Decimal rendering: `Nat.repr` and `String.toNat?` are mutually inverse -/

theorem decChars_eq (n : Nat) :
    decChars n = if n < 10 then [Nat.digitChar n]
      else decChars (n / 10) ++ [Nat.digitChar (n % 10)] := by
  rw [decChars.eq_def]
  split <;> simp_all

theorem digitChar_sub : ∀ d : Fin 10,
    (Nat.digitChar d.val).toNat - '0'.toNat = d.val := by decide

theorem digitChar_isDigit : ∀ d : Fin 10,
    (Nat.digitChar d.val).isDigit = true := by decide

theorem toDigitsCore_decChars :
    ∀ (fuel n : Nat) (ds : List Char), n < 10 ^ (fuel + 1) →
      Nat.toDigitsCore 10 (fuel + 1) n ds = decChars n ++ ds := by
  intro fuel
  induction fuel with
  | zero =>
    intro n ds hn
    have h10 : n < 10 := by simpa using hn
    have hdiv : n / 10 = 0 := Nat.div_eq_of_lt h10
    have hmod : n % 10 = n := Nat.mod_eq_of_lt h10
    simp [Nat.toDigitsCore, hdiv, hmod, decChars_eq n, h10]
  | succ fuel ih =>
    intro n ds hn
    by_cases h10 : n < 10
    · have hdiv : n / 10 = 0 := Nat.div_eq_of_lt h10
      have hmod : n % 10 = n := Nat.mod_eq_of_lt h10
      simp [Nat.toDigitsCore, hdiv, hmod, decChars_eq n, h10]
    · have hdiv : n / 10 ≠ 0 := by omega
      have hlt : n / 10 < 10 ^ (fuel + 1) := by
        rw [Nat.div_lt_iff_lt_mul (by norm_num)]
        calc n < 10 ^ (fuel + 1 + 1) := hn
        _ = 10 ^ (fuel + 1) * 10 := by rw [pow_succ]
      have hrec := ih (n / 10) (Nat.digitChar (n % 10) :: ds) hlt
      rw [show Nat.toDigitsCore 10 (fuel + 1 + 1) n ds =
            Nat.toDigitsCore 10 (fuel + 1) (n / 10) (Nat.digitChar (n % 10) :: ds) by
          simp [Nat.toDigitsCore, hdiv]]
      rw [hrec, decChars_eq n, if_neg h10]
      simp

theorem repr_eq_decChars (n : Nat) : Nat.repr n = (decChars n).asString := by
  have hbound : n < 10 ^ (n + 1) := by
    calc n < 10 ^ n := Nat.lt_pow_self (by norm_num) n
    _ ≤ 10 ^ (n + 1) := Nat.pow_le_pow_right (by norm_num) (Nat.le_succ n)
  unfold Nat.repr Nat.toDigits
  rw [toDigitsCore_decChars n n [] hbound]
  simp

theorem decChars_ne_nil (n : Nat) : decChars n ≠ [] := by
  rw [decChars_eq n]
  split <;> simp

theorem decChars_all_digits (n : Nat) : ∀ c ∈ decChars n, c.isDigit = true := by
  induction n using Nat.strong_induction_on with
  | _ n ih =>
    rw [decChars_eq n]
    by_cases h10 : n < 10
    · rw [if_pos h10]
      intro c hc
      rw [List.mem_singleton] at hc
      subst hc
      exact digitChar_isDigit ⟨n, h10⟩
    · rw [if_neg h10]
      intro c hc
      rcases List.mem_append.mp hc with hc | hc
      · exact ih (n / 10) (Nat.div_lt_self (by omega) (by omega)) c hc
      · rw [List.mem_singleton] at hc
        subst hc
        exact digitChar_isDigit ⟨n % 10, Nat.mod_lt _ (by omega)⟩

theorem decChars_foldl (n : Nat) :
    ∀ acc : Nat,
      List.foldl (fun a c => a * 10 + (c.toNat - '0'.toNat)) acc (decChars n) =
        acc * 10 ^ (decChars n).length + n := by
  induction n using Nat.strong_induction_on with
  | _ n ih =>
    intro acc
    by_cases h10 : n < 10
    · rw [decChars_eq n, if_pos h10]
      simp only [List.foldl_cons, List.foldl_nil, List.length_singleton]
      rw [digitChar_sub ⟨n, h10⟩]
      simp [pow_one]
    · rw [decChars_eq n, if_neg h10]
      rw [List.foldl_append]
      rw [ih (n / 10) (Nat.div_lt_self (by omega) (by omega)) acc]
      simp only [List.foldl_cons, List.foldl_nil, List.length_append,
        List.length_singleton]
      rw [digitChar_sub ⟨n % 10, Nat.mod_lt _ (by omega)⟩]
      have hmul : n / 10 * 10 + n % 10 = n := by omega
      have hstep :
          (acc * 10 ^ (decChars (n / 10)).length + n / 10) * 10 + n % 10 =
            acc * (10 ^ (decChars (n / 10)).length * 10) + (n / 10 * 10 + n % 10) := by
        ring
      rw [hstep, hmul, ← pow_succ]

theorem toNat?_repr (n : Nat) : String.toNat? (Nat.repr n) = some n := by
  rw [repr_eq_decChars]
  have hdata : ((decChars n).asString).data = decChars n := rfl
  have hne : (decChars n).asString ≠ "" := by
    intro h
    have := congrArg String.data h
    rw [hdata] at this
    exact decChars_ne_nil n this
  have hempty : ((decChars n).asString).isEmpty = false := by
    rw [Bool.eq_false_iff]
    intro h
    exact hne (String.isEmpty_iff _ |>.mp h)
  have hall : ((decChars n).asString).all (·.isDigit) = true := by
    rw [String.all_eq]
    rw [List.all_eq_true]
    intro c hc
    exact decChars_all_digits n c hc
  have hisnat : ((decChars n).asString).isNat = true := by
    unfold String.isNat
    rw [hempty, hall]
    rfl
  unfold String.toNat?
  rw [hisnat]
  simp only [if_true]
  rw [String.foldl_eq]
  rw [show ((decChars n).asString).1 = decChars n from rfl]
  rw [decChars_foldl n 0]
  simp

theorem repr_injective : Function.Injective Nat.repr := by
  intro a b h
  have := congrArg String.toNat? h
  rw [toNat?_repr, toNat?_repr] at this
  exact Option.some.inj this

theorem csvFile_parse (prompts : List (Nat × String)) :
    parseCsv (csvFile prompts) = some (csvHeader :: prompts.map encodeRow) := by
  unfold csvFile
  apply csv_parse_write
  intro r hr
  rcases List.mem_cons.mp hr with rfl | hr
  · rfl
  · obtain ⟨p, -, rfl⟩ := List.mem_map.mp hr
    rfl

theorem decodeRow_encodeRow (p : Nat × String) : decodeRow (encodeRow p) = some p := by
  obtain ⟨n, t⟩ := p
  simp [decodeRow, encodeRow, toNat?_repr]

theorem decodeRows_encode (prompts : List (Nat × String)) :
    decodeRows (prompts.map encodeRow) = some prompts := by
  induction prompts with
  | nil => rfl
  | cons p ps ih => simp [decodeRows, decodeRow_encodeRow, ih]

/-! ## Lemmas about the top-level control flow -/

theorem generate_and_save_of_error {rng : Nat → Nat}
    {respond : String → Nat → Except PyExc String} {fuel count : Nat} {e : PyExc}
    (h : generate_batch rng respond fuel count = some (.error e)) :
    generate_and_save rng respond fuel count = some (.error e) := by
  unfold generate_and_save
  rw [h]

theorem generate_and_save_ok {rng : Nat → Nat}
    {respond : String → Nat → Except PyExc String} {fuel count : Nat} {c : String}
    (h : generate_and_save rng respond fuel count = some (.ok c)) :
    ∃ l, generate_batch rng respond fuel count = some (.ok l) ∧ c = csvFile l := by
  unfold generate_and_save at h
  cases hgb : generate_batch rng respond fuel count with
  | none => rw [hgb] at h; simp at h
  | some v =>
    rw [hgb] at h
    cases v with
    | error e => simp at h
    | ok l =>
      simp only [Option.some.injEq, Except.ok.injEq] at h
      exact ⟨l, rfl, h.symm⟩

theorem runMain_error_no_file {env : Option String} {rng : Nat → Nat}
    {respond : String → Nat → Except PyExc String} {fuel count : Nat} {e : PyExc}
    (h : generate_batch rng respond fuel count = some (.error e)) :
    ∀ o c, runMain env rng respond fuel count = some (o, c) → c = none := by
  intro o c hrun
  have hgas : generate_and_save rng respond fuel count = some (.error e) :=
    generate_and_save_of_error h
  unfold runMain at hrun
  cases hinit : initGenerator env none with
  | error e' =>
    cases e' with
    | valueError m =>
      rw [hinit] at hrun
      simp only [Option.some.injEq, Prod.mk.injEq] at hrun
      exact hrun.2.symm
    | otherError m =>
      rw [hinit] at hrun
      simp only [Option.some.injEq, Prod.mk.injEq] at hrun
      exact hrun.2.symm
  | ok env' =>
    rw [hinit] at hrun
    rw [hgas] at hrun
    cases e with
    | valueError m =>
      simp only [Option.some.injEq, Prod.mk.injEq] at hrun
      exact hrun.2.symm
    | otherError m =>
      simp only [Option.some.injEq, Prod.mk.injEq] at hrun
      exact hrun.2.symm

theorem runMain_success_file {env : Option String} {rng : Nat → Nat}
    {respond : String → Nat → Except PyExc String} {fuel count : Nat}
    {o : MainOutcome} {contents : String}
    (h : runMain env rng respond fuel count = some (o, some contents)) :
    ∃ l, generate_batch rng respond fuel count = some (.ok l) ∧ contents = csvFile l := by
  unfold runMain at h
  cases hinit : initGenerator env none with
  | error e' =>
    cases e' with
    | valueError m => rw [hinit] at h; simp at h
    | otherError m => rw [hinit] at h; simp at h
  | ok env' =>
    rw [hinit] at h
    cases hgas : generate_and_save rng respond fuel count with
    | none => rw [hgas] at h; simp at h
    | some v =>
      rw [hgas] at h
      cases v with
      | error e =>
        cases e with
        | valueError m => simp at h
        | otherError m => simp at h
      | ok c =>
        simp only [Option.some.injEq, Prod.mk.injEq, Option.some.injEq] at h
        obtain ⟨-, rfl⟩ := h
        exact generate_and_save_ok hgas

/-! ## The claims -/

/-- C1: for every N ≥ 0, a successful run of the batch loop followed by the
writer produces a result list (and output rows) numbered with sequence numbers
exactly 1..N in generation order, one row per accepted item plus a single
header row. -/
theorem batch_rows_numbered_one_to_N
    (rng : Nat → Nat) (respond : String → Nat → Except PyExc String)
    (fuel count : Nat) (l : List (Nat × String))
    (h : generate_batch rng respond fuel count = some (.ok l)) :
    l.map Prod.fst = List.range' 1 count ∧ l.length = count ∧
    parseCsv (csvFile l) = some (csvHeader :: l.map encodeRow) ∧
    (csvHeader :: l.map encodeRow).length = count + 1 := by
  obtain ⟨hids, hlen⟩ := generate_batch_length h
  refine ⟨hids, hlen, csvFile_parse l, ?_⟩
  simp [hlen]

/-- Witness for C1: a concrete successful run with N = 2. -/
theorem batch_rows_numbered_one_to_N_witness :
    generate_batch (fun _ => 0) (fun _ k => .ok (Nat.repr k)) 1 2 =
        some (.ok [(1, "0"), (2, "1")]) ∧
    (([(1, "0"), (2, "1")] : List (Nat × String)).map Prod.fst = List.range' 1 2 ∧
      ([(1, "0"), (2, "1")] : List (Nat × String)).length = 2 ∧
      parseCsv (csvFile [(1, "0"), (2, "1")]) =
        some (csvHeader :: ([(1, "0"), (2, "1")] : List (Nat × String)).map encodeRow) ∧
      (csvHeader :: ([(1, "0"), (2, "1")] : List (Nat × String)).map encodeRow).length = 2 + 1) :=
  ⟨by rfl, batch_rows_numbered_one_to_N (fun _ => 0) (fun _ k => .ok (Nat.repr k)) 1 2
      [(1, "0"), (2, "1")] (by rfl)⟩

/-- C2: in every run's result list the text fields are pairwise distinct
(the uniqueness invariant of the batch loop). -/
theorem batch_texts_pairwise_distinct
    (rng : Nat → Nat) (respond : String → Nat → Except PyExc String)
    (fuel count : Nat) (l : List (Nat × String))
    (h : generate_batch rng respond fuel count = some (.ok l)) :
    (l.map Prod.snd).Nodup := by
  obtain ⟨c, haux⟩ := generate_batch_ok h
  exact generateBatchAux_nodup (by simp) (by simp) haux

/-- Witness for C2: a concrete run whose two texts are distinct. -/
theorem batch_texts_pairwise_distinct_witness :
    generate_batch (fun _ => 1) (fun _ k => .ok (Nat.repr k)) 1 2 =
        some (.ok [(1, "0"), (2, "1")]) ∧
    (([(1, "0"), (2, "1")] : List (Nat × String)).map Prod.snd).Nodup :=
  ⟨by rfl, batch_texts_pairwise_distinct (fun _ => 1) (fun _ k => .ok (Nat.repr k)) 1 2
      [(1, "0"), (2, "1")] (by rfl)⟩

/-- C7: every field of a sampled parameter set lies in that field's declared
fixed domain; in particular the category is one of the fixed theme labels. -/
theorem sampled_fields_in_declared_domains (r1 r2 r3 r4 r5 : Nat) :
    (generate_seed_parameters r1 r2 r3 r4 r5).category ∈ categories ∧
    (generate_seed_parameters r1 r2 r3 r4 r5).technology_level ∈ technology_levels ∧
    (generate_seed_parameters r1 r2 r3 r4 r5).setting ∈ settings ∧
    (generate_seed_parameters r1 r2 r3 r4 r5).tone ∈ tones ∧
    (generate_seed_parameters r1 r2 r3 r4 r5).focus ∈ focuses :=
  ⟨randomChoice_mem categories (by decide) r1,
   randomChoice_mem technology_levels (by decide) r2,
   randomChoice_mem settings (by decide) r3,
   randomChoice_mem tones (by decide) r4,
   randomChoice_mem focuses (by decide) r5⟩

/-- C9: at every state reached by the batch loop after an accepted item, the
seen-text set holds exactly the text fields of the accumulated result list. -/
theorem seen_set_matches_result_texts (req : Nat → Except PyExc String)
    (fuel count : Nat) (st : List String × List (Nat × String)) (s : String)
    (h : st ∈ batchTrace req fuel 1 count 0 [] []) :
    s ∈ st.1 ↔ s ∈ st.2.map Prod.snd :=
  batchTrace_inv (by simp) h s

/-- Witness for C9: the state after the first accepted item of a concrete run. -/
theorem seen_set_matches_result_texts_witness :
    ((["a"], [(1, "a")]) : List String × List (Nat × String)) ∈
        batchTrace (fun _ => (.ok "a" : Except PyExc String)) 1 1 1 0 [] [] ∧
    ("a" ∈ ((["a"], [(1, "a")]) : List String × List (Nat × String)).1 ↔
      "a" ∈ ((["a"], [(1, "a")]) : List String × List (Nat × String)).2.map Prod.snd) :=
  ⟨by decide, seen_set_matches_result_texts (fun _ => .ok "a") 1 1 (["a"], [(1, "a")]) "a"
      (by decide)⟩

/-- C3: a response equal to an already-accepted text makes the loop draw fresh
parameters and issue another request (the next call index); an accepted step
always carries a text not previously accepted, so duplicate responses are never
counted and never appear in the result list. -/
theorem duplicate_responses_discarded :
    (∀ (rng : Nat → Nat) (respond : String → Nat → Except PyExc String)
        (seen : List String) (fuel k : Nat) (t : String),
        requestAt rng respond k = .ok t → t ∈ seen →
        acquireUnique (requestAt rng respond) seen (fuel + 1) k =
          acquireUnique (requestAt rng respond) seen fuel (k + 1)) ∧
    (∀ (req : Nat → Except PyExc String) (seen : List String) (fuel calls : Nat)
        (t : String) (calls' : Nat),
        acquireUnique req seen fuel calls = some (.ok (t, calls')) → t ∉ seen) ∧
    (∀ (req : Nat → Except PyExc String) (fuel i r calls : Nat) (seen : List String)
        (acc l : List (Nat × String)) (c : Nat),
        generateBatchAux req fuel i (r + 1) calls seen acc = some (.ok (l, c)) →
        ∃ t calls', acquireUnique req seen fuel calls = some (.ok (t, calls')) ∧
          t ∉ seen ∧
          generateBatchAux req fuel (i + 1) r calls' (t :: seen) (acc ++ [(i, t)]) =
            some (.ok (l, c))) := by
  refine ⟨?_, ?_, ?_⟩
  · intro rng respond seen fuel k t h1 h2
    exact acquireUnique_dup fuel k h1 h2
  · intro req seen fuel calls t calls' h
    exact acquireUnique_ok_not_mem h
  · intro req fuel i r calls seen acc l c h
    simp only [generateBatchAux] at h
    cases hacq : acquireUnique req seen fuel calls with
    | none => rw [hacq] at h; simp at h
    | some v =>
      rw [hacq] at h
      cases v with
      | error e => simp at h
      | ok p =>
        obtain ⟨t, calls'⟩ := p
        exact ⟨t, calls', rfl, acquireUnique_ok_not_mem hacq, h⟩

/-- Witness for C3: a duplicate response at call 0 turns into a retry at call 1;
an accepted text is fresh; an accepted step decomposes as claimed. -/
theorem duplicate_responses_discarded_witness :
    (requestAt (fun _ => 0) (fun _ k => .ok (if k = 0 then "a" else "b")) 0 = .ok "a" ∧
      "a" ∈ (["a"] : List String) ∧
      acquireUnique (requestAt (fun _ => 0) (fun _ k => .ok (if k = 0 then "a" else "b")))
          ["a"] (0 + 1) 0 =
        acquireUnique (requestAt (fun _ => 0) (fun _ k => .ok (if k = 0 then "a" else "b")))
          ["a"] 0 1) ∧
    (acquireUnique (fun k => (.ok (if k = 0 then "a" else "b") : Except PyExc String))
        ["a"] 2 0 = some (.ok ("b", 2)) ∧
      "b" ∉ (["a"] : List String)) ∧
    (generateBatchAux (fun _ => (.ok "a" : Except PyExc String)) 1 1 (0 + 1) 0 [] [] =
        some (.ok ([(1, "a")], 1)) ∧
      ∃ t calls',
        acquireUnique (fun _ => (.ok "a" : Except PyExc String)) [] 1 0 =
          some (.ok (t, calls')) ∧
        t ∉ ([] : List String) ∧
        generateBatchAux (fun _ => (.ok "a" : Except PyExc String)) 1 (1 + 1) 0 calls'
          (t :: []) ([] ++ [(1, t)]) = some (.ok ([(1, "a")], 1))) :=
  ⟨⟨by rfl, by decide,
      duplicate_responses_discarded.1 (fun _ => 0) (fun _ k => .ok (if k = 0 then "a" else "b"))
        ["a"] 0 0 "a" (by rfl) (by decide)⟩,
   ⟨by rfl,
      duplicate_responses_discarded.2.1 (fun k => .ok (if k = 0 then "a" else "b"))
        ["a"] 2 0 "b" 2 (by rfl)⟩,
   ⟨by rfl,
      duplicate_responses_discarded.2.2 (fun _ => .ok "a") 1 1 0 0 [] [] [(1, "a")] 1
        (by rfl)⟩⟩

/-- C4: with a requester that returns a new distinct string on every call, a
batch of N = 5 terminates and makes exactly 5 requester calls, the inner
duplicate-rejection loop never iterating. -/
theorem fresh_requester_five_items_five_calls
    (req : Nat → Except PyExc String) (f : Nat → String) (fuel : Nat)
    (hreq : ∀ k, req k = .ok (f k)) (hinj : Function.Injective f) (hfuel : 1 ≤ fuel) :
    ∃ l, generateBatchAux req fuel 1 5 0 [] [] = some (.ok (l, 5)) ∧ l.length = 5 := by
  obtain ⟨l, hl⟩ := generateBatchAux_all_fresh hinj hreq hfuel 5 1 0 [] [] (by simp)
  refine ⟨l, hl, ?_⟩
  have hids := generateBatchAux_ids hl
  have := congrArg List.length hids
  simpa using this

/-- Witness for C4: the decimal-numbering requester is distinct on every call. -/
theorem fresh_requester_five_items_five_calls_witness :
    (∀ k, (fun k => (Except.ok (Nat.repr k) : Except PyExc String)) k = .ok (Nat.repr k)) ∧
    Function.Injective Nat.repr ∧ (1 : Nat) ≤ 1 ∧
    ∃ l, generateBatchAux (fun k => (.ok (Nat.repr k) : Except PyExc String)) 1 1 5 0 [] [] =
        some (.ok (l, 5)) ∧ l.length = 5 :=
  ⟨fun _ => rfl, repr_injective, le_refl 1,
    fresh_requester_five_items_five_calls (fun k => .ok (Nat.repr k)) Nat.repr 1
      (fun _ => rfl) repr_injective (le_refl 1)⟩

/-- C5: with `OPENAI_API_KEY` absent and no `api_key` argument, initialization
raises `ValueError`, `main` reports a configuration error, and no output file
is created; the outcome does not depend on the requester, so no generation
occurs. -/
theorem missing_credential_config_error_no_file :
    initGenerator none none = .error (.valueError "No OpenAI API key found. Please provide one or set OPENAI_API_KEY in the .env file.") ∧
    ∀ (rng : Nat → Nat) (respond : String → Nat → Except PyExc String) (fuel count : Nat),
      runMain none rng respond fuel count =
        some (.configError "No OpenAI API key found. Please provide one or set OPENAI_API_KEY in the .env file.", none) :=
  ⟨rfl, fun _ _ _ _ => rfl⟩

/-- C6: if the batch raises, `main` writes no output file; and an output file
exists only when the full batch of N unique items was assembled, its contents
being exactly the CSV rendering of that batch. -/
theorem generation_error_no_partial_output
    (env : Option String) (rng : Nat → Nat)
    (respond : String → Nat → Except PyExc String) (fuel count : Nat) :
    (∀ (e : PyExc) (o : MainOutcome) (c : Option String),
        generate_batch rng respond fuel count = some (.error e) →
        runMain env rng respond fuel count = some (o, c) → c = none) ∧
    (∀ (o : MainOutcome) (contents : String),
        runMain env rng respond fuel count = some (o, some contents) →
        ∃ l, generate_batch rng respond fuel count = some (.ok l) ∧
          l.length = count ∧ contents = csvFile l) := by
  constructor
  · intro e o c hbatch hrun
    exact runMain_error_no_file hbatch o c hrun
  · intro o contents hrun
    obtain ⟨l, hbatch, hcontents⟩ := runMain_success_file hrun
    exact ⟨l, hbatch, (generate_batch_length hbatch).2, hcontents⟩

/-- Witness for C6: a failing requester yields no file; a completing run yields
the file of the full batch. -/
theorem generation_error_no_partial_output_witness :
    (generate_batch (fun _ => 0) (fun _ _ => .error (.otherError "boom")) 1 1 =
        some (.error (.otherError "boom")) ∧
      runMain (some "k") (fun _ => 0) (fun _ _ => .error (.otherError "boom")) 1 1 =
        some (.generationError "boom", none) ∧
      (none : Option String) = none) ∧
    (runMain (some "k") (fun _ => 0) (fun _ k => .ok (Nat.repr k)) 1 1 =
        some (.success, some (csvFile [(1, "0")])) ∧
      ∃ l, generate_batch (fun _ => 0) (fun _ k => .ok (Nat.repr k)) 1 1 =
          some (.ok l) ∧ l.length = 1 ∧ csvFile [(1, "0")] = csvFile l) :=
  ⟨⟨by rfl, by rfl,
      (generation_error_no_partial_output (some "k") (fun _ => 0)
          (fun _ _ => .error (.otherError "boom")) 1 1).1
        (.otherError "boom") (.generationError "boom") none (by rfl) (by rfl)⟩,
   ⟨by rfl,
      (generation_error_no_partial_output (some "k") (fun _ => 0)
          (fun _ k => .ok (Nat.repr k)) 1 1).2
        .success (csvFile [(1, "0")]) (by rfl)⟩⟩

/-- C8: writing any batch with the all-fields-quoted writer and parsing the
file back yields the header row plus exactly the written rows, and decoding
those rows restores the original (sequence number, text) pairs — including
texts containing commas and embedded double quotes. -/
theorem csv_write_parse_roundtrip (prompts : List (Nat × String)) :
    parseCsv (csvFile prompts) = some (csvHeader :: prompts.map encodeRow) ∧
    decodeRows (prompts.map encodeRow) = some prompts :=
  ⟨csvFile_parse prompts, decodeRows_encode prompts⟩

/-- C10: the top-level handler routes every `ValueError` raised during the run
to the configuration-error path, and every other exception to the generic
generation-error path. -/
theorem valueerror_routed_to_config_path (env env' : Option String)
    (rng : Nat → Nat) (respond : String → Nat → Except PyExc String)
    (fuel count : Nat) (hinit : initGenerator env none = .ok env') :
    (∀ m, generate_and_save rng respond fuel count = some (.error (.valueError m)) →
        runMain env rng respond fuel count = some (.configError m, none)) ∧
    (∀ m, generate_and_save rng respond fuel count = some (.error (.otherError m)) →
        runMain env rng respond fuel count = some (.generationError m, none)) := by
  constructor <;> intro m h <;> simp [runMain, hinit, h]

/-- Witness for C10: a `ValueError` raised by the requester is reported as a
configuration error. -/
theorem valueerror_routed_to_config_path_witness :
    initGenerator (some "k") none = .ok (some "k") ∧
    generate_and_save (fun _ => 0) (fun _ _ => .error (.valueError "boom")) 1 1 =
      some (.error (.valueError "boom")) ∧
    runMain (some "k") (fun _ => 0) (fun _ _ => .error (.valueError "boom")) 1 1 =
      some (.configError "boom", none) :=
  ⟨by rfl, by rfl,
    (valueerror_routed_to_config_path (some "k") (some "k") (fun _ => 0)
        (fun _ _ => .error (.valueError "boom")) 1 1 (by rfl)).1 "boom" (by rfl)⟩
